import Mathlib

/- Verification of the muffin-metrics client module (muffin_metrics.py).

   The module is embedded shallowly: the stat-line formatters, the sampling
   logic of AbstractClient.send, the UDP frame chunking of UDPClient._send,
   the TCP framing of TCPClient._send, the connect/disconnect lifecycle and
   the context-manager exit paths, and the Timer, all as pure Lean functions.
   Side effects (datagrams handed to sendto, bytes written to a TCP stream)
   are logged in explicit state records; Python exceptions are modelled with
   Except; the uniform random draw of random.random() and the wall clock
   time() are passed as explicit rational inputs. -/

namespace MuffinMetrics

/-- Model of Python round applied to an exact rational: round half to even,
computed on the numerator and denominator with integer arithmetic only. -/
def pyRound (q : ℚ) : ℤ :=
  let n := q.num
  let d := (q.den : ℤ)
  let f := Int.fdiv n d
  let r2 := 2 * (n - f * d)
  if r2 < d then f
  else if d < r2 then f + 1
  else if f % 2 = 0 then f else f + 1

/-- Model of Python str.join: `sep.join(parts)`. -/
def joinWith (sep : String) : List String → String
  | [] => ""
  | [x] => x
  | x :: y :: xs => x ++ sep ++ joinWith sep (y :: xs)

/-- Model of AbstractClient.build_message (muffin_metrics.py lines 157-159):
the Graphite line is the space-join of the prefixed stat, the value, and
str(round(time())) taken at render time t. -/
def graphiteBuildMessage (pfx stat value : String) (t : ℚ) : String :=
  joinWith " " [pfx ++ stat, value, toString (pyRound t)]

/-- Model of StatsDMixin.build_message (lines 261-263): the percent-format
of prefix, stat and value, with a colon between stat and value. -/
def statsdBuildMessage (pfx stat value : String) : String :=
  pfx ++ stat ++ ":" ++ value

/-- Outcome of one call to AbstractClient.send: skipped by the sampling
draw, skipped because the rendered message is empty, dispatched at once to
self._send, or appended to the open pipeline buffer. -/
inductive SendOutcome where
  | skippedSample
  | skippedEmpty
  | immediate (message : String)
  | buffered (message : String)

/-- Message carried by a non-skipped SendOutcome. -/
def SendOutcome.message : SendOutcome → Option String
  | .immediate m => some m
  | .buffered m => some m
  | _ => none

/-- Model of AbstractClient.send (lines 161-173). The build argument stands
for the dynamically dispatched build_message; rate is the sampling rate and
u the value drawn by random.random(). Returns the new pipeline buffer and
what happened to the message. -/
def AbstractClient.sendCore (build : String → String → String)
    (pipeline : Option (List String)) (stat value : String) (rate u : ℚ) :
    Option (List String) × SendOutcome :=
  if rate < 1 ∧ u > rate then (pipeline, .skippedSample)
  else
    let message := build stat value
    if message = "" then (pipeline, .skippedEmpty)
    else
      match pipeline with
      | none => (none, .immediate message)
      | some p => (some (p ++ [message]), .buffered message)

/-- AbstractClient.send as it runs on a plain Graphite client, where
build_message is AbstractClient.build_message rendered at time t. -/
def graphiteSendCore (pfx : String) (t : ℚ) (pipeline : Option (List String))
    (stat value : String) (rate u : ℚ) : Option (List String) × SendOutcome :=
  AbstractClient.sendCore (fun s v => graphiteBuildMessage pfx s v t) pipeline stat value rate u

/-- Model of StatsDMixin.send (lines 255-259): when rate is below one the
value is suffixed with the sampling annotation before the generic send path
runs, and build_message dispatches to the StatsD formatter. -/
def StatsDMixin.sendCore (pfx : String) (pipeline : Option (List String))
    (stat value : String) (rate u : ℚ) : Option (List String) × SendOutcome :=
  let v := if rate < 1 then value ++ "|@" ++ toString rate else value
  AbstractClient.sendCore (fun s w => statsdBuildMessage pfx s w) pipeline stat v rate u

/-- Model of StatsDMixin.incr (lines 239-241). -/
def StatsDMixin.incr (pfx : String) (pipeline : Option (List String))
    (stat : String) (count : ℤ) (rate u : ℚ) : Option (List String) × SendOutcome :=
  StatsDMixin.sendCore pfx pipeline stat (toString count ++ "|c") rate u

/-- Model of StatsDMixin.decr (lines 243-245): incr with the negated count. -/
def StatsDMixin.decr (pfx : String) (pipeline : Option (List String))
    (stat : String) (count : ℤ) (rate u : ℚ) : Option (List String) × SendOutcome :=
  StatsDMixin.incr pfx pipeline stat (-count) rate u

/-- Model of StatsDMixin.timing (lines 247-249). -/
def StatsDMixin.timing (pfx : String) (pipeline : Option (List String))
    (stat : String) (delta : ℤ) (rate u : ℚ) : Option (List String) × SendOutcome :=
  StatsDMixin.sendCore pfx pipeline stat (toString delta ++ "|ms") rate u

/-- Model of StatsDMixin.gauge (lines 251-253); note the source passes no
rate on to send, so the default rate of one is used. -/
def StatsDMixin.gauge (pfx : String) (pipeline : Option (List String))
    (stat value : String) (u : ℚ) : Option (List String) × SendOutcome :=
  StatsDMixin.sendCore pfx pipeline stat (value ++ "|g") 1 u

/-- Model of str.encode with the ascii codec: the byte list of the code
points when all are below 128, a UnicodeEncodeError otherwise. -/
def encodeAscii (s : String) : Except String (List Nat) :=
  if s.data.all (fun c => c.toNat < 128) then .ok (s.data.map Char.toNat)
  else .error "UnicodeEncodeError"

/-- Chunking loop of UDPClient._send (lines 196-207) over byte lists: pop
each message; if the current frame plus the message plus a newline would
exceed maxudpsize, emit the current frame and start a new one; append the
message and a newline; finally emit the last frame when it is nonempty. -/
def udpChunksAux (maxudpsize : Nat) : List (List Nat) → List Nat → List (List Nat)
  | [], data => if data.isEmpty then [] else [data]
  | message :: rest, data =>
    if data.length + message.length + 1 > maxudpsize then
      data :: udpChunksAux maxudpsize rest (message ++ [10])
    else
      udpChunksAux maxudpsize rest (data ++ message ++ [10])

/-- Frames emitted by UDPClient._send for the given encoded messages. -/
def udpChunks (maxudpsize : Nat) (messages : List (List Nat)) : List (List Nat) :=
  udpChunksAux maxudpsize messages []

/-- Splitting a byte sequence at newline bytes, dropping a trailing empty
piece: the inverse reading of the newline-terminated wire format. -/
def splitLinesAux : List Nat → List Nat → List (List Nat)
  | [], cur => if cur.isEmpty then [] else [cur]
  | b :: rest, cur =>
    if b = 10 then cur :: splitLinesAux rest []
    else splitLinesAux rest (cur ++ [b])

/-- Split a byte sequence back into its newline-separated lines. -/
def splitLines (bs : List Nat) : List (List Nat) :=
  splitLinesAux bs []

/-- Value returned by a Python method: an implicit None or a literal False. -/
inductive PyRet where
  | retNone
  | retFalse

/-- State of a UDPClient: the configured stat name pre-string and maximum
datagram size, whether the transport handle is present, the log of frames
handed to sendto so far, and the pipeline buffer (none outside a batch
scope). -/
structure UDPState where
  pfx : String
  maxudpsize : Nat
  connected : Bool
  sentFrames : List (List Nat)
  pipeline : Option (List String)

/-- Model of UDPClient._send (lines 191-207): returns False without doing
anything when the transport handle is absent; otherwise ascii-encodes the
messages (an encode error propagates) and emits the chunked frames. -/
def UDPClient.sendRaw (st : UDPState) (messages : List String) :
    Except String (UDPState × PyRet) :=
  if st.connected then do
    let encoded ← messages.mapM encodeAscii
    .ok ({ st with sentFrames := st.sentFrames ++ udpChunks st.maxudpsize encoded }, .retNone)
  else .ok (st, .retFalse)

/-- AbstractClient.send running on a UDPClient: the generic path renders and
routes the message, and an immediate dispatch goes to UDPClient._send. -/
def UDPClient.send (st : UDPState) (stat value : String) (rate u t : ℚ) :
    Except String (UDPState × PyRet) :=
  match graphiteSendCore st.pfx t st.pipeline stat value rate u with
  | (_, SendOutcome.immediate message) => UDPClient.sendRaw st [message]
  | (pl, _) => Except.ok ({ st with pipeline := pl }, PyRet.retNone)

/-- Model of AbstractClient.pipe (lines 133-136): open an empty buffer. -/
def UDPClient.pipe (st : UDPState) : UDPState :=
  { st with pipeline := some [] }

/-- Model of AbstractClient.disconnect (lines 150-155) on a UDPClient: when
the pipeline buffer is truthy (non-None and nonempty) flush it through
self._send; then self.transport.close(), which raises an AttributeError
when the handle is None; then clear both the handle and the buffer. -/
def UDPClient.disconnect (st : UDPState) : Except String UDPState := do
  let st1 ← match st.pipeline with
    | some (m :: ms) => do
      let r ← UDPClient.sendRaw st (m :: ms)
      pure r.1
    | _ => pure st
  if st1.connected then
    pure { st1 with connected := false, pipeline := none }
  else
    Except.error "AttributeError"

/-- Result of AbstractClient.__exit__ on a UDPClient: the body's exception
re-raised (state untouched), a completed disconnect, or an error raised by
the disconnect itself. -/
inductive UDPExitOutcome where
  | reraised (st : UDPState)
  | cleaned (st : UDPState)
  | cleanupError (e : String)

/-- Model of AbstractClient.__exit__ (lines 140-144) on a UDPClient: when an
exception value is present it is re-raised at once; only otherwise does
self.disconnect() run. -/
def UDPClient.exitScope (st : UDPState) (excRaised : Bool) : UDPExitOutcome :=
  if excRaised then .reraised st
  else
    match UDPClient.disconnect st with
    | .ok st1 => .cleaned st1
    | .error e => .cleanupError e

/-- State of a TCPClient: the configured stat name pre-string, whether the
transport handle is present, the bytes written to the stream so far, and
the pipeline buffer. -/
structure TCPState where
  pfx : String
  connected : Bool
  written : List Nat
  pipeline : Option (List String)

/-- Model of TCPClient._send (lines 226-232): returns False without doing
anything when the transport handle is absent; otherwise writes the
newline-join of the messages plus a final newline, ascii-encoded. -/
def TCPClient.sendRaw (st : TCPState) (messages : List String) :
    Except String (TCPState × PyRet) :=
  if st.connected then do
    let encoded ← encodeAscii (joinWith "\n" messages ++ "\n")
    .ok ({ st with written := st.written ++ encoded }, .retNone)
  else .ok (st, .retFalse)

/-- AbstractClient.send running on a TCPClient. -/
def TCPClient.send (st : TCPState) (stat value : String) (rate u t : ℚ) :
    Except String (TCPState × PyRet) :=
  match graphiteSendCore st.pfx t st.pipeline stat value rate u with
  | (_, SendOutcome.immediate message) => TCPClient.sendRaw st [message]
  | (pl, _) => Except.ok ({ st with pipeline := pl }, PyRet.retNone)

/-- Model of AbstractClient.pipe on a TCPClient. -/
def TCPClient.pipe (st : TCPState) : TCPState :=
  { st with pipeline := some [] }

/-- Model of AbstractClient.disconnect on a TCPClient. -/
def TCPClient.disconnect (st : TCPState) : Except String TCPState := do
  let st1 ← match st.pipeline with
    | some (m :: ms) => do
      let r ← TCPClient.sendRaw st (m :: ms)
      pure r.1
    | _ => pure st
  if st1.connected then
    pure { st1 with connected := false, pipeline := none }
  else
    Except.error "AttributeError"

/-- Result of AbstractClient.__exit__ on a TCPClient. -/
inductive TCPExitOutcome where
  | reraised (st : TCPState)
  | cleaned (st : TCPState)
  | cleanupError (e : String)

/-- Model of AbstractClient.__exit__ (lines 140-144) on a TCPClient. -/
def TCPClient.exitScope (st : TCPState) (excRaised : Bool) : TCPExitOutcome :=
  if excRaised then .reraised st
  else
    match TCPClient.disconnect st with
    | .ok st1 => .cleaned st1
    | .error e => .cleanupError e

/-- What TCPClient.connect (lines 214-224) hands back to the caller: the
connected client itself, or the literal False that the except branch
returns when fail_silently is set. -/
inductive TCPConnectResult where
  | clientR (st : TCPState)
  | falseR

/-- Model of TCPClient.connect: connectOk tells whether open_connection
succeeds; on an OSError the fail_silently flag selects between returning
False and propagating the error. -/
def TCPClient.connect (failSilently connectOk : Bool) (st : TCPState) :
    Except String TCPConnectResult :=
  if connectOk then .ok (.clientR { st with connected := true })
  else if failSilently then .ok .falseR
  else .error "OSError"

/-- Model of Plugin.send (lines 110-117) on a TCP backend: obtain a client
for the backend, return False when it is falsy, otherwise send the single
stat and disconnect (an implicit None is returned on that path). -/
def Plugin.sendVia (failSilently connectOk : Bool) (st : TCPState)
    (stat value : String) (t : ℚ) : Except String PyRet := do
  match ← TCPClient.connect failSilently connectOk st with
  | .falseR => pure .retFalse
  | .clientR st1 => do
    let r ← TCPClient.send st1 stat value 1 1 t
    let _ ← TCPClient.disconnect r.1
    pure .retNone

/-- State of a Timer (lines 296-321): the recorded elapsed milliseconds and
the instant recorded by start (None before the first start). -/
structure Timer where
  ms : Option ℤ
  startedAt : Option ℚ

/-- Model of Timer.__init__: both fields are None. -/
def Timer.init : Timer :=
  { ms := none, startedAt := none }

/-- Model of Timer.start (lines 304-308) at instant t: clear any previous
result and record the instant. -/
def Timer.start (t : ℚ) : Timer :=
  { ms := none, startedAt := some t }

/-- Model of Timer.stop (lines 312-315) at instant t: the elapsed seconds
since the recorded start, times 1000 and rounded; a stop before any start
subtracts None from a float and raises a TypeError. -/
def Timer.stop (tm : Timer) (t : ℚ) : Except String Timer :=
  match tm.startedAt with
  | none => .error "TypeError"
  | some t0 => .ok { tm with ms := some (pyRound (1000 * (t - t0))) }

/-- Result of Timer.__exit__: the body's exception re-raised with the timer
untouched, a completed stop, or an error raised by stop itself. -/
inductive TimerExitOutcome where
  | reraised (tm : Timer)
  | stopped (tm : Timer)
  | stopError (e : String)

/-- Model of Timer.__exit__ (lines 317-321) at instant t: when an exception
value is present it is re-raised at once; only otherwise does stop run. -/
def Timer.exitScope (tm : Timer) (t : ℚ) (excRaised : Bool) : TimerExitOutcome :=
  if excRaised then .reraised tm
  else
    match tm.stop t with
    | .ok tm1 => .stopped tm1
    | .error e => .stopError e

/- Helper lemmas about the UDP chunking loop and line splitting. -/

theorem udpChunksAux_length_le (M : Nat) :
    ∀ (msgs : List (List Nat)), (∀ m ∈ msgs, m.length + 1 ≤ M) →
    ∀ data : List Nat, data.length ≤ M →
    ∀ f ∈ udpChunksAux M msgs data, f.length ≤ M := by
  intro msgs
  induction msgs with
  | nil =>
    intro _ data hd f hf
    simp only [udpChunksAux] at hf
    split at hf
    · simp at hf
    · simp at hf
      subst hf
      exact hd
  | cons m ms ih =>
    intro h data hd f hf
    have hm := h m (by simp)
    have hms : ∀ x ∈ ms, x.length + 1 ≤ M := fun x hx => h x (by simp [hx])
    simp only [udpChunksAux] at hf
    split at hf
    · rcases List.mem_cons.mp hf with hf1 | hf2
      · subst hf1
        exact hd
      · exact ih hms (m ++ [10]) (by simp; omega) f hf2
    · next hcond =>
      exact ih hms (data ++ m ++ [10]) (by simp; omega) f hf

theorem udpChunksAux_flatten (M : Nat) :
    ∀ (msgs : List (List Nat)) (data : List Nat),
    (udpChunksAux M msgs data).flatten
      = data ++ (msgs.map (fun m => m ++ [10])).flatten := by
  intro msgs
  induction msgs with
  | nil =>
    intro data
    by_cases hd : data.isEmpty
    · have hdnil : data = [] := by simpa using hd
      simp [udpChunksAux, hd, hdnil]
    · simp [udpChunksAux, hd]
  | cons m ms ih =>
    intro data
    simp only [udpChunksAux]
    split
    · simp [ih]
    · simp [ih]

theorem splitLinesAux_newline :
    ∀ (m : List Nat), 10 ∉ m → ∀ (rest cur : List Nat),
    splitLinesAux (m ++ 10 :: rest) cur = (cur ++ m) :: splitLinesAux rest [] := by
  intro m
  induction m with
  | nil =>
    intro _ rest cur
    simp [splitLinesAux]
  | cons b bs ih =>
    intro hm rest cur
    have hb : ¬ b = 10 := by
      intro hb
      exact hm (by simp [hb])
    have hbs : (10 : Nat) ∉ bs := fun hx => hm (by simp [hx])
    simp only [List.cons_append, splitLinesAux, if_neg hb, List.append_eq]
    rw [ih hbs rest (cur ++ [b])]
    simp

theorem splitLines_roundtrip :
    ∀ (g : List (List Nat)), (∀ m ∈ g, 10 ∉ m) →
    splitLines ((g.map (fun m => m ++ [10])).flatten) = g := by
  intro g
  induction g with
  | nil =>
    intro _
    rfl
  | cons m ms ih =>
    intro hg
    have hm : (10 : Nat) ∉ m := hg m (by simp)
    have hms : ∀ x ∈ ms, (10 : Nat) ∉ x := fun x hx => hg x (by simp [hx])
    have hshape : ((m :: ms).map (fun m => m ++ [10])).flatten
        = m ++ 10 :: ((ms.map (fun m => m ++ [10])).flatten) := by simp
    have ih2 : splitLinesAux ((ms.map (fun m => m ++ [10])).flatten) [] = ms := ih hms
    show splitLinesAux (((m :: ms).map (fun m => m ++ [10])).flatten) [] = m :: ms
    rw [hshape, splitLinesAux_newline m hm]
    simp [ih2]

theorem flattenNl_eq_nil {g : List (List Nat)}
    (h : (g.map (fun m => m ++ [10])).flatten = []) : g = [] := by
  cases g with
  | nil => rfl
  | cons m ms => simp at h

theorem udpChunksAux_lines (M : Nat) :
    ∀ (msgs : List (List Nat)), (∀ m ∈ msgs, 10 ∉ m) →
    ∀ (g : List (List Nat)) (data : List Nat),
      (∀ m ∈ g, 10 ∉ m) →
      data = (g.map (fun m => m ++ [10])).flatten →
      ((udpChunksAux M msgs data).map splitLines).flatten = g ++ msgs := by
  intro msgs
  induction msgs with
  | nil =>
    intro _ g data hg hdata
    simp only [udpChunksAux]
    by_cases hd : data.isEmpty
    · have hdnil : data = [] := by simpa using hd
      have hgnil : g = [] := flattenNl_eq_nil (by rw [← hdata, hdnil])
      simp [hd, hgnil]
    · simp only [hd, Bool.false_eq_true, if_false, List.map_cons, List.map_nil,
        List.flatten_cons, List.flatten_nil, List.append_nil]
      rw [hdata, splitLines_roundtrip g hg]
  | cons m ms ih =>
    intro hmsgs g data hg hdata
    have hm : (10 : Nat) ∉ m := hmsgs m (by simp)
    have hms : ∀ x ∈ ms, (10 : Nat) ∉ x := fun x hx => hmsgs x (by simp [hx])
    simp only [udpChunksAux]
    split
    · have h1 : ((udpChunksAux M ms (m ++ [10])).map splitLines).flatten = [m] ++ ms := by
        refine ih hms [m] (m ++ [10]) ?_ (by simp)
        intro x hx
        simp at hx
        subst hx
        exact hm
      simp only [List.map_cons, List.flatten_cons, h1]
      rw [hdata, splitLines_roundtrip g hg]
      simp
    · have h1 : ((udpChunksAux M ms (data ++ m ++ [10])).map splitLines).flatten
          = (g ++ [m]) ++ ms := by
        refine ih hms (g ++ [m]) (data ++ m ++ [10]) ?_ (by simp [hdata])
        intro x hx
        rcases List.mem_append.mp hx with hx1 | hx1
        · exact hg x hx1
        · simp at hx1
          subst hx1
          exact hm
      rw [h1]
      simp

/-- C2 counterexample: with maximum size 4 and the single five-byte line
"hello", UDPClient._send emits a six-byte frame (the line plus its
newline), so not every emitted frame has byte length at most the
configured maximum. -/
theorem c2_counterexample :
    ¬ ∀ f ∈ udpChunks 4 [[104, 101, 108, 108, 111]], f.length ≤ 4 := by decide

/-- C2 amended: provided every buffered line fits in a frame together with
its newline (encoded length plus one at most M), every frame emitted by
the UDP transmit operation has byte length at most M. -/
theorem c2_amended (M : Nat) (msgs : List (List Nat))
    (h : ∀ m ∈ msgs, m.length + 1 ≤ M) :
    ∀ f ∈ udpChunks M msgs, f.length ≤ M :=
  udpChunksAux_length_le M msgs h [] (by simp)

/-- C2 witness: the theorem applied to the single line [104] with maximum
size 512, whose unique emitted frame is [104, 10]. -/
theorem c2_witness : ([104, 10] : List Nat).length ≤ 512 :=
  c2_amended 512 [[104]] (by decide) [104, 10] (by decide)

/-- C3: UDP chunking never splits a line across frame boundaries — each
emitted frame splits back into whole lines, and those per-frame line lists
concatenate, in emission order, to exactly the original line sequence —
and splitting the concatenation of all emitted frames reproduces the
original line sequence in insertion order (lines contain no newline
byte). -/
theorem c3_chunking_order (M : Nat) (msgs : List (List Nat))
    (h : ∀ m ∈ msgs, 10 ∉ m) :
    ((udpChunks M msgs).map splitLines).flatten = msgs ∧
    splitLines ((udpChunks M msgs).flatten) = msgs := by
  constructor
  · simpa using udpChunksAux_lines M msgs h [] [] (by simp) rfl
  · show splitLines ((udpChunksAux M msgs []).flatten) = msgs
    rw [udpChunksAux_flatten]
    simpa using splitLines_roundtrip msgs h

/-- C3 witness: the theorem applied to the lines [104] and [105] with
maximum size 3, which chunks into two frames. -/
theorem c3_witness :
    ((udpChunks 3 [[104], [105]]).map splitLines).flatten = [[104], [105]] ∧
    splitLines ((udpChunks 3 [[104], [105]]).flatten) = [[104], [105]] :=
  c3_chunking_order 3 [[104], [105]] (by decide)

/- Helper lemmas about the rendered lines. -/

theorem statsdBuildMessage_ne_empty (pfx stat v : String) :
    statsdBuildMessage pfx stat v ≠ "" := by
  intro h
  have h2 := congrArg String.length h
  have hc : (":" : String).length = 1 := rfl
  have h0 : ("" : String).length = 0 := rfl
  simp only [statsdBuildMessage, String.length_append, hc, h0] at h2
  omega

theorem graphiteBuildMessage_eq (pfx stat value : String) (t : ℚ) :
    graphiteBuildMessage pfx stat value t
      = pfx ++ stat ++ " " ++ value ++ " " ++ toString (pyRound t) := by
  simp [graphiteBuildMessage, joinWith, String.append_assoc]

theorem graphiteBuildMessage_ne_empty (pfx stat value : String) (t : ℚ) :
    graphiteBuildMessage pfx stat value t ≠ "" := by
  intro h
  rw [graphiteBuildMessage_eq] at h
  have h2 := congrArg String.length h
  have hsp : (" " : String).length = 1 := rfl
  have h0 : ("" : String).length = 0 := rfl
  simp only [String.length_append, hsp, h0] at h2
  omega

/-- C9: on a Graphite (non-StatsD) client the rendered message at render
time t is the prefixed stat, the value and the rounded integer timestamp,
space-separated; in particular with prefix "app." the message for stat
"cpu" and value 42 is "app.cpu 42 " followed by the timestamp. -/
theorem c9_graphite_format (pfx stat value : String) (t : ℚ) :
    graphiteBuildMessage pfx stat value t
      = pfx ++ stat ++ " " ++ value ++ " " ++ toString (pyRound t) ∧
    graphiteBuildMessage "app." "cpu" "42" t
      = "app.cpu 42 " ++ toString (pyRound t) := by
  refine ⟨graphiteBuildMessage_eq pfx stat value t, ?_⟩
  rw [graphiteBuildMessage_eq]
  rfl

/-- C5: on a StatsD client, send renders the prefixed stat, a colon and the
value; incr renders the value as the count with a counter suffix; timing
renders the delta with a milliseconds suffix; decr is exactly incr of the
negated count; and whenever rate is below one the sampling annotation is
appended to the value before rendering. -/
theorem c5_statsd_rendering (pfx : String) (pl : Option (List String))
    (stat value : String) (count delta : ℤ) (rate u : ℚ) (hns : ¬ u > rate) :
    (StatsDMixin.sendCore pfx pl stat value 1 u).2.message
      = some (pfx ++ stat ++ ":" ++ value) ∧
    (StatsDMixin.incr pfx pl stat count 1 u).2.message
      = some (pfx ++ stat ++ ":" ++ (toString count ++ "|c")) ∧
    (StatsDMixin.timing pfx pl stat delta 1 u).2.message
      = some (pfx ++ stat ++ ":" ++ (toString delta ++ "|ms")) ∧
    StatsDMixin.decr pfx pl stat count rate u
      = StatsDMixin.incr pfx pl stat (-count) rate u ∧
    (rate < 1 → (StatsDMixin.sendCore pfx pl stat value rate u).2.message
      = some (pfx ++ stat ++ ":" ++ (value ++ "|@" ++ toString rate))) := by
  have hrender : ∀ v : String,
      (StatsDMixin.sendCore pfx pl stat v 1 u).2.message
        = some (pfx ++ stat ++ ":" ++ v) := by
    intro v
    have hskip : ¬ ((1 : ℚ) < 1 ∧ u > 1) := by
      rintro ⟨h1, _⟩
      exact absurd h1 (lt_irrefl 1)
    have hne := statsdBuildMessage_ne_empty pfx stat v
    simp only [StatsDMixin.sendCore, if_neg (lt_irrefl (1 : ℚ)),
      AbstractClient.sendCore, if_neg hskip, if_neg hne]
    cases pl with
    | none => rfl
    | some p => rfl
  refine ⟨hrender value, hrender (toString count ++ "|c"),
    hrender (toString delta ++ "|ms"), rfl, ?_⟩
  intro hrate
  have hskip : ¬ (rate < 1 ∧ u > rate) := by
    rintro ⟨_, h2⟩
    exact hns h2
  have hne := statsdBuildMessage_ne_empty pfx stat (value ++ "|@" ++ toString rate)
  simp only [StatsDMixin.sendCore, if_pos hrate, AbstractClient.sendCore,
    if_neg hskip, if_neg hne]
  cases pl with
  | none => rfl
  | some p => rfl

/-- C5 witness: the theorem applied at prefix "app.", stat "hits", value
"3|c" style arguments, rate 0 and draw 0. -/
theorem c5_witness :
    (StatsDMixin.sendCore "app." none "hits" "v" 1 0).2.message
      = some ("app." ++ "hits" ++ ":" ++ "v") ∧
    (StatsDMixin.incr "app." none "hits" 3 1 0).2.message
      = some ("app." ++ "hits" ++ ":" ++ (toString (3 : ℤ) ++ "|c")) ∧
    (StatsDMixin.timing "app." none "hits" 17 1 0).2.message
      = some ("app." ++ "hits" ++ ":" ++ (toString (17 : ℤ) ++ "|ms")) ∧
    StatsDMixin.decr "app." none "hits" 3 0 0
      = StatsDMixin.incr "app." none "hits" (-3) 0 0 ∧
    ((0 : ℚ) < 1 → (StatsDMixin.sendCore "app." none "hits" "v" 0 0).2.message
      = some ("app." ++ "hits" ++ ":" ++ ("v" ++ "|@" ++ toString (0 : ℚ)))) :=
  c5_statsd_rendering "app." none "hits" "v" 3 17 0 0 (by decide)

/-- C6: with the uniform draw u made explicit, AbstractClient.send skips
the message exactly when rate is below one and u exceeds rate; when rate is
at least one sampling never skips; and a non-skipped message is appended to
the buffer when a pipeline is open and dispatched immediately otherwise. -/
theorem c6_sampling (pfx stat value : String) (t rate u : ℚ)
    (pl : Option (List String)) (p : List String) (hu0 : 0 ≤ u) (hu1 : u < 1) :
    (rate < 1 →
      ((graphiteSendCore pfx t pl stat value rate u).2 = SendOutcome.skippedSample
        ↔ u > rate)) ∧
    (1 ≤ rate →
      (graphiteSendCore pfx t pl stat value rate u).2 ≠ SendOutcome.skippedSample) ∧
    (¬ (rate < 1 ∧ u > rate) →
      graphiteSendCore pfx t none stat value rate u
        = (none, SendOutcome.immediate (graphiteBuildMessage pfx stat value t))) ∧
    (¬ (rate < 1 ∧ u > rate) →
      graphiteSendCore pfx t (some p) stat value rate u
        = (some (p ++ [graphiteBuildMessage pfx stat value t]),
           SendOutcome.buffered (graphiteBuildMessage pfx stat value t))) := by
  have hne := graphiteBuildMessage_ne_empty pfx stat value t
  refine ⟨?_, ?_, ?_, ?_⟩
  · intro hrate
    constructor
    · intro hout
      by_contra hu
      have hskip : ¬ (rate < 1 ∧ u > rate) := by
        rintro ⟨_, h2⟩
        exact hu h2
      simp only [graphiteSendCore, AbstractClient.sendCore, if_neg hskip,
        if_neg hne] at hout
      cases pl with
      | none => simp at hout
      | some q => simp at hout
    · intro hu
      simp [graphiteSendCore, AbstractClient.sendCore, if_pos (And.intro hrate hu)]
  · intro hrate hout
    have hskip : ¬ (rate < 1 ∧ u > rate) := by
      rintro ⟨h1, _⟩
      exact absurd hrate (not_le.mpr h1)
    simp only [graphiteSendCore, AbstractClient.sendCore, if_neg hskip,
      if_neg hne] at hout
    cases pl with
    | none => simp at hout
    | some q => simp at hout
  · intro hskip
    simp [graphiteSendCore, AbstractClient.sendCore, if_neg hskip, if_neg hne]
  · intro hskip
    simp [graphiteSendCore, AbstractClient.sendCore, if_neg hskip, if_neg hne]

/-- C6 witness: the theorem applied at rate 1 and draw 0. -/
theorem c6_witness :
    ((1 : ℚ) < 1 →
      ((graphiteSendCore "app." 0 none "cpu" "42" 1 0).2 = SendOutcome.skippedSample
        ↔ (0 : ℚ) > 1)) ∧
    ((1 : ℚ) ≤ 1 →
      (graphiteSendCore "app." 0 none "cpu" "42" 1 0).2 ≠ SendOutcome.skippedSample) ∧
    (¬ ((1 : ℚ) < 1 ∧ (0 : ℚ) > 1) →
      graphiteSendCore "app." 0 none "cpu" "42" 1 0
        = (none, SendOutcome.immediate (graphiteBuildMessage "app." "cpu" "42" 0))) ∧
    (¬ ((1 : ℚ) < 1 ∧ (0 : ℚ) > 1) →
      graphiteSendCore "app." 0 (some []) "cpu" "42" 1 0
        = (some ([] ++ [graphiteBuildMessage "app." "cpu" "42" 0]),
           SendOutcome.buffered (graphiteBuildMessage "app." "cpu" "42" 0))) :=
  c6_sampling "app." "cpu" "42" 0 1 0 none [] (by decide) (by decide)

/- Helper lemmas about the connection lifecycle. -/

theorem udpDisconnect_ok {st st' : UDPState}
    (h : UDPClient.disconnect st = Except.ok st') :
    st'.connected = false ∧ st'.pipeline = none := by
  unfold UDPClient.disconnect at h
  split at h
  · rename_i m ms _
    cases hs : UDPClient.sendRaw st (m :: ms) with
    | error e =>
      rw [hs] at h
      simp only [bind, Except.bind] at h
      exact Except.noConfusion h
    | ok pr =>
      rw [hs] at h
      simp only [bind, Except.bind, pure, Except.pure] at h
      split at h
      · cases h
        exact ⟨rfl, rfl⟩
      · cases h
  · simp only [bind, Except.bind, pure, Except.pure] at h
    split at h
    · cases h
      exact ⟨rfl, rfl⟩
    · cases h

theorem tcpDisconnect_ok {st st' : TCPState}
    (h : TCPClient.disconnect st = Except.ok st') :
    st'.connected = false ∧ st'.pipeline = none := by
  unfold TCPClient.disconnect at h
  split at h
  · rename_i m ms _
    cases hs : TCPClient.sendRaw st (m :: ms) with
    | error e =>
      rw [hs] at h
      simp only [bind, Except.bind] at h
      exact Except.noConfusion h
    | ok pr =>
      rw [hs] at h
      simp only [bind, Except.bind, pure, Except.pure] at h
      split at h
      · cases h
        exact ⟨rfl, rfl⟩
      · cases h
  · simp only [bind, Except.bind, pure, Except.pure] at h
    split at h
    · cases h
      exact ⟨rfl, rfl⟩
    · cases h

theorem udpDisconnect_not_connected {st : UDPState} (h : st.connected = false) :
    UDPClient.disconnect st = Except.error "AttributeError" := by
  unfold UDPClient.disconnect
  cases hp : st.pipeline with
  | none => simp [bind, Except.bind, pure, Except.pure, h]
  | some l =>
    cases l with
    | nil => simp [bind, Except.bind, pure, Except.pure, h]
    | cons m ms =>
      have hs : UDPClient.sendRaw st (m :: ms) = Except.ok (st, PyRet.retFalse) := by
        simp [UDPClient.sendRaw, h]
      simp [bind, Except.bind, pure, Except.pure, hs, h]

theorem tcpDisconnect_not_connected {st : TCPState} (h : st.connected = false) :
    TCPClient.disconnect st = Except.error "AttributeError" := by
  unfold TCPClient.disconnect
  cases hp : st.pipeline with
  | none => simp [bind, Except.bind, pure, Except.pure, h]
  | some l =>
    cases l with
    | nil => simp [bind, Except.bind, pure, Except.pure, h]
    | cons m ms =>
      have hs : TCPClient.sendRaw st (m :: ms) = Except.ok (st, PyRet.retFalse) := by
        simp [TCPClient.sendRaw, h]
      simp [bind, Except.bind, pure, Except.pure, hs, h]

theorem udpDisconnect_flush {st : UDPState} {msgs : List String}
    {bss : List (List Nat)}
    (hc : st.connected = true) (hp : st.pipeline = some msgs) (hne : msgs ≠ [])
    (henc : msgs.mapM encodeAscii = Except.ok bss) :
    UDPClient.disconnect st = Except.ok
      { st with
        connected := false
        pipeline := none
        sentFrames := st.sentFrames ++ udpChunks st.maxudpsize bss } := by
  cases msgs with
  | nil => exact absurd rfl hne
  | cons m ms =>
    have henc2 : List.mapM.loop encodeAscii (m :: ms) [] = Except.ok bss := henc
    have hs : UDPClient.sendRaw st (m :: ms) = Except.ok
        ({ st with sentFrames := st.sentFrames ++ udpChunks st.maxudpsize bss },
         PyRet.retNone) := by
      simp [UDPClient.sendRaw, hc, henc, henc2, bind, Except.bind]
    unfold UDPClient.disconnect
    simp [hp, hs, bind, Except.bind, pure, Except.pure, hc]

theorem tcpDisconnect_flush {st : TCPState} {msgs : List String} {bs : List Nat}
    (hc : st.connected = true) (hp : st.pipeline = some msgs) (hne : msgs ≠ [])
    (henc : encodeAscii (joinWith "\n" msgs ++ "\n") = Except.ok bs) :
    TCPClient.disconnect st = Except.ok
      { st with
        connected := false
        pipeline := none
        written := st.written ++ bs } := by
  cases msgs with
  | nil => exact absurd rfl hne
  | cons m ms =>
    have hs : TCPClient.sendRaw st (m :: ms) = Except.ok
        ({ st with written := st.written ++ bs }, PyRet.retNone) := by
      simp [TCPClient.sendRaw, hc, henc, bind, Except.bind]
    unfold TCPClient.disconnect
    simp [hp, hs, bind, Except.bind, pure, Except.pure, hc]

/-- C1 counterexample: on the concrete connected UDP client whose open
pipeline buffers one line, exiting the batch scope with an exception
pending re-raises with the client state untouched — no propagating outcome
carries a disconnected client, so the flush-and-disconnect cleanup did not
run before propagation. -/
theorem c1_counterexample :
    ¬ ∃ st1 : UDPState,
      UDPClient.exitScope ⟨"muffin.", 512, true, [], some ["muffin.a 1 0"]⟩ true
        = UDPExitOutcome.reraised st1 ∧ st1.connected = false := by
  rintro ⟨st1, h1, h2⟩
  have hev : UDPClient.exitScope ⟨"muffin.", 512, true, [], some ["muffin.a 1 0"]⟩ true
      = UDPExitOutcome.reraised ⟨"muffin.", 512, true, [], some ["muffin.a 1 0"]⟩ := rfl
  rw [hev] at h1
  simp only [UDPExitOutcome.reraised.injEq] at h1
  subst h1
  simp at h2

/-- C1 amended: on a connected UDP or TCP client with a nonempty open
pipeline, a normal scope exit flushes the buffered lines as one
transmission and disconnects, but an exceptional scope exit re-raises the
body's exception immediately with the client untouched: no flush and no
disconnect happen on the exceptional path. -/
theorem c1_amended (stU : UDPState) (msgsU : List String) (bssU : List (List Nat))
    (stT : TCPState) (msgsT : List String) (bsT : List Nat)
    (hcU : stU.connected = true) (hpU : stU.pipeline = some msgsU) (hneU : msgsU ≠ [])
    (hencU : msgsU.mapM encodeAscii = Except.ok bssU)
    (hcT : stT.connected = true) (hpT : stT.pipeline = some msgsT) (hneT : msgsT ≠ [])
    (hencT : encodeAscii (joinWith "\n" msgsT ++ "\n") = Except.ok bsT) :
    UDPClient.exitScope stU true = UDPExitOutcome.reraised stU ∧
    UDPClient.exitScope stU false = UDPExitOutcome.cleaned
      { stU with
        connected := false
        pipeline := none
        sentFrames := stU.sentFrames ++ udpChunks stU.maxudpsize bssU } ∧
    TCPClient.exitScope stT true = TCPExitOutcome.reraised stT ∧
    TCPClient.exitScope stT false = TCPExitOutcome.cleaned
      { stT with
        connected := false
        pipeline := none
        written := stT.written ++ bsT } := by
  refine ⟨rfl, ?_, rfl, ?_⟩
  · simp [UDPClient.exitScope, udpDisconnect_flush hcU hpU hneU hencU]
  · simp [TCPClient.exitScope, tcpDisconnect_flush hcT hpT hneT hencT]

/-- C1 witness: the amended theorem applied to concrete connected UDP and
TCP clients each buffering the single line "m". -/
theorem c1_witness :
    UDPClient.exitScope ⟨"muffin.", 512, true, [], some ["m"]⟩ true
      = UDPExitOutcome.reraised ⟨"muffin.", 512, true, [], some ["m"]⟩ ∧
    UDPClient.exitScope ⟨"muffin.", 512, true, [], some ["m"]⟩ false
      = UDPExitOutcome.cleaned ⟨"muffin.", 512, false, udpChunks 512 [[109]], none⟩ ∧
    TCPClient.exitScope ⟨"muffin.", true, [], some ["m"]⟩ true
      = TCPExitOutcome.reraised ⟨"muffin.", true, [], some ["m"]⟩ ∧
    TCPClient.exitScope ⟨"muffin.", true, [], some ["m"]⟩ false
      = TCPExitOutcome.cleaned ⟨"muffin.", false, [109, 10], none⟩ := by
  have h := c1_amended ⟨"muffin.", 512, true, [], some ["m"]⟩ ["m"] [[109]]
    ⟨"muffin.", true, [], some ["m"]⟩ ["m"] [109, 10]
    rfl rfl (by decide) rfl rfl rfl (by decide) rfl
  exact h

/-- C4 counterexample: with fail_silently set and the TCP connection
attempt failing, TCPClient.connect hands back the literal False, not a
client object: no subsequent client operation exists on the yielded value,
contrary to the usable-but-inert sentinel the claim describes. -/
theorem c4_counterexample :
    TCPClient.connect true false ⟨"muffin.", false, [], none⟩
      = Except.ok TCPConnectResult.falseR ∧
    ¬ ∃ st1 : TCPState, TCPClient.connect true false ⟨"muffin.", false, [], none⟩
      = Except.ok (TCPConnectResult.clientR st1) := by
  refine ⟨rfl, ?_⟩
  rintro ⟨st1, h⟩
  have hev : TCPClient.connect true false ⟨"muffin.", false, [], none⟩
      = Except.ok TCPConnectResult.falseR := rfl
  rw [hev] at h
  simp at h

/-- C4 amended: when fail_silently is enabled and the TCP connection
attempt fails, client() yields the boolean False rather than a client, the
facade-level Plugin.send detects the falsy result and returns False, and
no connection error escapes to the caller. -/
theorem c4_amended (st : TCPState) (stat value : String) (t : ℚ) :
    TCPClient.connect true false st = Except.ok TCPConnectResult.falseR ∧
    Plugin.sendVia true false st stat value t = Except.ok PyRet.retFalse :=
  ⟨rfl, rfl⟩

/-- Record update of a UDPState by its own pipeline field value. -/
theorem udpUpdate_pipeline_none {st : UDPState} (h : st.pipeline = none) :
    { st with pipeline := none } = st := by
  cases st
  simp_all

/-- Record update of a TCPState by its own pipeline field value. -/
theorem tcpUpdate_pipeline_none {st : TCPState} (h : st.pipeline = none) :
    { st with pipeline := none } = st := by
  cases st
  simp_all

/-- C7: after a disconnect() that completed on a UDP or TCP client, the
connection handle and the pipeline buffer are both cleared, and every
subsequent send is a no-op that leaves the state unchanged, never raises,
and returns the False failure indicator whenever the message is not
discarded by sampling. -/
theorem c7_disconnected_sends (stU stU' : UDPState) (stT stT' : TCPState)
    (stat value : String) (rate u t : ℚ)
    (hU : UDPClient.disconnect stU = Except.ok stU')
    (hT : TCPClient.disconnect stT = Except.ok stT') :
    stU'.connected = false ∧ stU'.pipeline = none ∧
    stT'.connected = false ∧ stT'.pipeline = none ∧
    UDPClient.send stU' stat value rate u t
      = Except.ok (stU', if rate < 1 ∧ u > rate then PyRet.retNone else PyRet.retFalse) ∧
    TCPClient.send stT' stat value rate u t
      = Except.ok (stT', if rate < 1 ∧ u > rate then PyRet.retNone else PyRet.retFalse) := by
  obtain ⟨hUc, hUp⟩ := udpDisconnect_ok hU
  obtain ⟨hTc, hTp⟩ := tcpDisconnect_ok hT
  refine ⟨hUc, hUp, hTc, hTp, ?_, ?_⟩
  · by_cases hskip : rate < 1 ∧ u > rate
    · have hcore : graphiteSendCore stU'.pfx t stU'.pipeline stat value rate u
          = (stU'.pipeline, SendOutcome.skippedSample) := by
        simp [graphiteSendCore, AbstractClient.sendCore, hskip]
      rw [UDPClient.send, hcore]
      simp [hskip, hUp, udpUpdate_pipeline_none]
    · have hne := graphiteBuildMessage_ne_empty stU'.pfx stat value t
      have hcore : graphiteSendCore stU'.pfx t stU'.pipeline stat value rate u
          = (none, SendOutcome.immediate (graphiteBuildMessage stU'.pfx stat value t)) := by
        simp [graphiteSendCore, AbstractClient.sendCore, hskip, hne, hUp]
      rw [UDPClient.send, hcore]
      simp [hskip, UDPClient.sendRaw, hUc]
  · by_cases hskip : rate < 1 ∧ u > rate
    · have hcore : graphiteSendCore stT'.pfx t stT'.pipeline stat value rate u
          = (stT'.pipeline, SendOutcome.skippedSample) := by
        simp [graphiteSendCore, AbstractClient.sendCore, hskip]
      rw [TCPClient.send, hcore]
      simp [hskip, hTp, tcpUpdate_pipeline_none]
    · have hne := graphiteBuildMessage_ne_empty stT'.pfx stat value t
      have hcore : graphiteSendCore stT'.pfx t stT'.pipeline stat value rate u
          = (none, SendOutcome.immediate (graphiteBuildMessage stT'.pfx stat value t)) := by
        simp [graphiteSendCore, AbstractClient.sendCore, hskip, hne, hTp]
      rw [TCPClient.send, hcore]
      simp [hskip, TCPClient.sendRaw, hTc]

/-- C7 witness: the theorem applied to concrete connected clients with no
open pipeline, disconnected successfully, then sent to at rate 1. -/
theorem c7_witness :
    (⟨"", 512, false, [], none⟩ : UDPState).connected = false ∧
    (⟨"", 512, false, [], none⟩ : UDPState).pipeline = none ∧
    (⟨"", false, [], none⟩ : TCPState).connected = false ∧
    (⟨"", false, [], none⟩ : TCPState).pipeline = none ∧
    UDPClient.send ⟨"", 512, false, [], none⟩ "s" "v" 1 0 0
      = Except.ok (⟨"", 512, false, [], none⟩,
          if (1 : ℚ) < 1 ∧ (0 : ℚ) > 1 then PyRet.retNone else PyRet.retFalse) ∧
    TCPClient.send ⟨"", false, [], none⟩ "s" "v" 1 0 0
      = Except.ok (⟨"", false, [], none⟩,
          if (1 : ℚ) < 1 ∧ (0 : ℚ) > 1 then PyRet.retNone else PyRet.retFalse) :=
  c7_disconnected_sends ⟨"", 512, true, [], none⟩ ⟨"", 512, false, [], none⟩
    ⟨"", true, [], none⟩ ⟨"", false, [], none⟩ "s" "v" 1 0 0 rfl rfl

/-- C10: disconnect() on a UDP or TCP client whose connection handle is
absent — never connected or already disconnected — raises an
AttributeError rather than being a safe no-op, so disconnect is not
idempotent: a disconnect that completed makes the next one raise. -/
theorem c10_disconnect_not_idempotent (stU stU2 stU' : UDPState) (stT : TCPState)
    (hU : stU.connected = false) (hT : stT.connected = false)
    (h2 : UDPClient.disconnect stU2 = Except.ok stU') :
    UDPClient.disconnect stU = Except.error "AttributeError" ∧
    TCPClient.disconnect stT = Except.error "AttributeError" ∧
    UDPClient.disconnect stU' = Except.error "AttributeError" :=
  ⟨udpDisconnect_not_connected hU, tcpDisconnect_not_connected hT,
    udpDisconnect_not_connected (udpDisconnect_ok h2).1⟩

/-- C10 witness: the theorem applied to concrete never-connected UDP and
TCP clients and to the result of a completed disconnect. -/
theorem c10_witness :
    UDPClient.disconnect ⟨"", 512, false, [], none⟩ = Except.error "AttributeError" ∧
    TCPClient.disconnect ⟨"", false, [], none⟩ = Except.error "AttributeError" ∧
    UDPClient.disconnect ⟨"", 512, false, [], none⟩ = Except.error "AttributeError" :=
  c10_disconnect_not_idempotent ⟨"", 512, false, [], none⟩ ⟨"", 512, true, [], none⟩
    ⟨"", 512, false, [], none⟩ ⟨"", false, [], none⟩ rfl rfl rfl

/-- C8 counterexample: on a timer started at instant 0, exiting the scope
at instant 5 with an exception pending re-raises with the timer untouched:
no propagating outcome carries a recorded elapsed value, so the timer was
not stopped before propagation. -/
theorem c8_counterexample :
    ¬ ∃ tm1 : Timer,
      Timer.exitScope (Timer.start 0) 5 true = TimerExitOutcome.reraised tm1
        ∧ tm1.ms ≠ none := by
  rintro ⟨tm1, h1, h2⟩
  have hev : Timer.exitScope (Timer.start 0) 5 true
      = TimerExitOutcome.reraised (Timer.start 0) := rfl
  rw [hev] at h1
  simp only [TimerExitOutcome.reraised.injEq] at h1
  subst h1
  exact h2 rfl

/-- C8 amended: on a started timer, a normal scope exit stops the timer and
records the rounded elapsed milliseconds, but an exceptional scope exit
re-raises the body's error immediately with the timer untouched: the
elapsed value is not recorded on the exceptional path. -/
theorem c8_amended (tm : Timer) (t t0 : ℚ) (h : tm.startedAt = some t0) :
    Timer.exitScope tm t true = TimerExitOutcome.reraised tm ∧
    Timer.exitScope tm t false
      = TimerExitOutcome.stopped { tm with ms := some (pyRound (1000 * (t - t0))) } := by
  refine ⟨rfl, ?_⟩
  simp [Timer.exitScope, Timer.stop, h]

/-- C8 witness: the amended theorem applied to a timer started at instant 0
and exited at instant 5. -/
theorem c8_witness :
    Timer.exitScope (Timer.start 0) 5 true = TimerExitOutcome.reraised (Timer.start 0) ∧
    Timer.exitScope (Timer.start 0) 5 false
      = TimerExitOutcome.stopped { Timer.start 0 with ms := some (pyRound (1000 * (5 - 0))) } :=
  c8_amended (Timer.start 0) 5 0 rfl

end MuffinMetrics
